import Mathlib

/-
Verification of the keysync secret-synchronization agent.

This file gives a shallow embedding, in Lean 4, of the parts of keysync that
the specification's claims are about:

  * the filename derivation and path handling of `Secret.Filename` and
    `OutputDir.Write`,
  * the path-canonicality check and non-empty-destination check of
    `extractTar` / `checkIfEmpty` (backup/tar.go),
  * the wrap-then-encrypt backup crypto `wrap` / `Unwrap` / `encrypt` /
    `decrypt` (backup/backup.go),
  * `Secret.ModeValue` and the mode actually applied by chmod,
  * the update counting in `Updated.Add`, `syncerEntry.Sync` and
    `Syncer.RunOnce`,
  * `getWithRetry` / `RawSecret` / `RawSecretList` of the HTTPS client.

Go strings are modelled as `List Char` (`GoStr`), byte slices as `List Nat`.
Filesystem and network effects are made explicit: state that the Go code
reads or mutates is threaded through the Lean functions, and the outcomes of
external calls (HTTP requests, AEAD and NaCl-box primitives) are passed in as
explicit parameters so the surrounding logic can be verified against them.
A Go function that can panic is modelled with an explicit `panics` outcome,
distinct from returning an error.
-/

/-! # Path model: Go's `filepath.Clean` and `filepath.Join` (path separator '/') -/

/-- Go strings, modelled as their list of characters. -/
abbrev GoStr := List Char

/-- Helper for `strings.Split`-style splitting on a separator character.
`acc` accumulates the current field in reverse. -/
def splitOnAux (sep : Char) : GoStr → GoStr → List GoStr
  | [], acc => [acc.reverse]
  | c :: cs, acc =>
    if c = sep then acc.reverse :: splitOnAux sep cs []
    else splitOnAux sep cs (c :: acc)

/-- Split a path into its '/'-separated fields. -/
def splitSlash (s : GoStr) : List GoStr := splitOnAux '/' s []

/-- Join components with '/' between them. -/
def interSlash : List GoStr → GoStr
  | [] => []
  | [x] => x
  | x :: y :: rest => x ++ '/' :: interSlash (y :: rest)

/-- The element-processing loop of Go's `filepath.Clean`: empty and "."
components are dropped; ".." pops the previous component, except that a ".."
at the root of a rooted path is dropped and leading ".."s of an unrooted path
are kept.  `acc` is the output stack in reverse. -/
def cleanStack : List GoStr → Bool → List GoStr → List GoStr
  | acc, _, [] => acc.reverse
  | acc, rooted, c :: rest =>
    if c = [] ∨ c = ['.'] then cleanStack acc rooted rest
    else if c = ['.', '.'] then
      match acc with
      | [] =>
        if rooted then cleanStack [] rooted rest
        else cleanStack [['.', '.']] rooted rest
      | top :: acc2 =>
        if top = ['.', '.'] then cleanStack (c :: top :: acc2) rooted rest
        else cleanStack acc2 rooted rest
    else cleanStack (c :: acc) rooted rest

/-- Go's `filepath.Clean` on a unix path. -/
def goClean (p : GoStr) : GoStr :=
  match p with
  | [] => ['.']
  | c :: _ =>
    let rooted := c = '/'
    let comps := cleanStack [] rooted (splitSlash p)
    if rooted then '/' :: interSlash comps
    else if comps = [] then ['.']
    else interSlash comps

/-- Go's `filepath.Join` on two elements: empty elements are dropped and the
result is Cleaned. -/
def filepathJoin (a b : GoStr) : GoStr :=
  if a = [] then (if b = [] then [] else goClean b)
  else if b = [] then goClean a
  else goClean (a ++ '/' :: b)

/-- `path` is strictly inside directory `dir`: `dir ++ "/"` is a prefix. -/
def withinDir (dir path : GoStr) : Bool := (dir ++ ['/']).isPrefixOf path

-- Sanity checks of the path model against documented `filepath.Clean` behavior.
example : goClean "/../x".data = "/x".data := by decide
example : goClean "/a/../../b".data = "/b".data := by decide
example : goClean "a/../../b".data = "../b".data := by decide
example : goClean "/x".data = "/x".data := by decide
example : goClean "a//b/./c/".data = "a/b/c".data := by decide
example : filepathJoin "/secrets/client1".data "x".data = "/secrets/client1/x".data := by
  decide
example : filepathJoin "/secrets/client1".data "..".data = "/secrets".data := by decide
example : filepathJoin "/dest".data "/x".data = "/dest/x".data := by decide

/-! # Secret model (`Secret`, `Secret.Filename`, `Secret.ModeValue`) -/

/-- A secret record as parsed from the server's JSON.  The informational
`CreatedAt`/`UpdatedAt` timestamps are omitted (no claim mentions them). -/
structure Secret where
  Name : GoStr
  Content : List Nat
  Length : Nat
  Checksum : GoStr
  FilenameOverride : Option GoStr
  Mode : GoStr
  Owner : GoStr
  Group : GoStr
deriving DecidableEq

/-- `Secret.Filename`: the filename metadata overrides the name; a name
containing the path separator is rejected. -/
def Secret.Filename (s : Secret) : Except String GoStr :=
  let name := match s.FilenameOverride with
    | some n => n
    | none => s.Name
  if '/' ∈ name then
    .error ("secret has invalid filename, got " ++ String.mk name)
  else
    .ok name

/-- The effective name `Filename` checks: `FilenameOverride` if set, else `Name`. -/
def effectiveName (s : Secret) : GoStr :=
  match s.FilenameOverride with
  | some n => n
  | none => s.Name

/-- Model of `strconv.ParseUint(s, 8, 16)`: a nonempty all-octal-digit string
whose value fits in 16 bits; anything else is an error (`none`). -/
def parseUintOct16 (s : GoStr) : Option Nat :=
  if s = [] then none
  else if s.all (fun c => decide ('0' ≤ c) && decide (c ≤ '7')) then
    let v := s.foldl (fun acc c => acc * 8 + (c.toNat - '0'.toNat)) 0
    if v ≤ 65535 then some v else none
  else none

/-- `Secret.ModeValue`: parse `Mode` (default "0440") as octal, mask to the
read bits `0444`, and mark as a regular file (`unix.S_IFREG = 0o100000`). -/
def Secret.ModeValue (s : Secret) : Except String Nat :=
  let mode := if s.Mode = [] then "0440".data else s.Mode
  match parseUintOct16 mode with
  | none => .error ("Unable to parse secret file mode: " ++ String.mk mode)
  | some modeValue => .ok ((modeValue &&& 0o444) ||| 0o100000)

/-- Go `os.File.Chmod`'s translation of an `os.FileMode` to the mode bits the
chmod syscall applies: the 0o777 permission bits, plus setuid/setgid/sticky
when the corresponding `FileMode` flag bits (23, 22, 20) are set. -/
def syscallMode (m : Nat) : Nat :=
  let o := m &&& 0o777
  let o := if m.testBit 23 then o ||| 0o4000 else o
  let o := if m.testBit 22 then o ||| 0o2000 else o
  let o := if m.testBit 20 then o ||| 0o1000 else o
  o

/-- The final path `OutputDir.Write` renames the secret to:
`filepath.Join(out.WriteDirectory, filename)`. -/
def outputWriteFullPath (writeDirectory : GoStr) (s : Secret) : Except String GoStr :=
  (s.Filename).map (fun filename => filepathJoin writeDirectory filename)

/-- The temporary path `OutputDir.Write` creates with `O_CREAT|O_EXCL`:
the full path with a random hex suffix appended. -/
def outputWriteTmpPath (writeDirectory : GoStr) (s : Secret) (randSuffix : GoStr) :
    Except String GoStr :=
  (outputWriteFullPath writeDirectory s).map (fun p => p ++ randSuffix)

/-- The permission bits `OutputDir.Write` leaves on disk: it chmods the opened
temp file to `secret.ModeValue()`, so the on-disk bits are `syscallMode` of it. -/
def writtenDiskMode (s : Secret) : Except String Nat :=
  (s.ModeValue).map syscallMode

/-! # Tar extraction model (backup/tar.go) -/

/-- Tar entry type flags relevant to `extractTar`'s switch. -/
inductive TarTypeflag
  | dir
  | reg
  | other (code : Nat)
deriving DecidableEq

/-- A tar entry: header fields plus the file content. -/
structure TarEntry where
  typeflag : TarTypeflag
  name : GoStr
  mode : Nat
  uid : Nat
  gid : Nat
  content : List Nat
deriving DecidableEq

/-- A file on disk, as produced by `output.WriteFileAtomically`. -/
structure TarFile where
  path : GoStr
  content : List Nat
  mode : Nat
  uid : Nat
  gid : Nat
deriving DecidableEq

/-- The destination directory's recursive file contents. -/
abbrev TarFs := List TarFile

/-- Errors of `extractTar` / `checkIfEmpty`. -/
inductive TarError
  | nonCanonicalPath (name : GoStr)
  | unhandledType (name : GoStr)
  | nonEmptyDir (files : List GoStr)
deriving DecidableEq

/-- `WriteFileAtomically` as a filesystem update: replace any file at `path`. -/
def fsWrite (fs : TarFs) (file : TarFile) : TarFs :=
  file :: fs.filter (fun f => f.path ≠ file.path)

/-- The probe `extractTar` builds for the canonicality check: prepend the path
separator unless the name already starts with one. -/
def probePath (name : GoStr) : GoStr :=
  if name.head? = some '/' then name else '/' :: name

/-- One iteration of `extractTar`'s entry loop: directories are skipped,
regular files are canonicality-checked and then written via
`WriteFileAtomically` at `filepath.Join(dirpath, header.Name)`, and any other
type is an error.  Returns the new filesystem and an optional error. -/
def processEntry (dirpath : GoStr) (fs : TarFs) (e : TarEntry) :
    TarFs × Option TarError :=
  match e.typeflag with
  | .dir => (fs, none)
  | .other _ => (fs, some (.unhandledType e.name))
  | .reg =>
    let name := probePath e.name
    if name ≠ goClean name then (fs, some (.nonCanonicalPath e.name))
    else
      let path := filepathJoin dirpath e.name
      (fsWrite fs ⟨path, e.content, e.mode, e.uid, e.gid⟩, none)

/-- `extractTar`'s entry loop, stopping at the first error. -/
def extractTarLoop (dirpath : GoStr) : TarFs → List TarEntry → TarFs × Option TarError
  | fs, [] => (fs, none)
  | fs, e :: rest =>
    match processEntry dirpath fs e with
    | (fs2, none) => extractTarLoop dirpath fs2 rest
    | (fs2, some err) => (fs2, some err)

/-- `extractTar`: refuse a non-empty destination (`checkIfEmpty` lists every
file found by the recursive walk); otherwise stream the entries. -/
def extractTar (entries : List TarEntry) (dirpath : GoStr) (fs : TarFs) :
    TarFs × Option TarError :=
  if fs.isEmpty then extractTarLoop dirpath fs entries
  else (fs, some (.nonEmptyDir (fs.map (fun f => f.path))))

/-! # Backup crypto model (backup/backup.go) -/

/-- An AEAD as used via `cipher.NewGCM`: `Seal` and `Open` with a fixed nonce
size.  The AES-GCM primitive itself is external to the repository; the claims
hold for any implementation meeting its contract, which theorems take as a
hypothesis. -/
structure AEADScheme where
  nonceSize : Nat
  gcmSeal : List Nat → List Nat → List Nat → List Nat
  gcmOpen : List Nat → List Nat → List Nat → Option (List Nat)

/-- NaCl box as used via `golang.org/x/crypto/nacl/box`: `Seal` and `Open`
over (message, nonce, peer public key, own private key). -/
structure BoxScheme where
  boxSeal : List Nat → List Nat → List Nat → List Nat → List Nat
  boxOpen : List Nat → List Nat → List Nat → List Nat → Option (List Nat)

/-- The `WrappedKey` JSON structure.  JSON (de)serialization is modelled as
the identity on this record. -/
structure WrappedKey where
  Nonce : List Nat
  CipherText : List Nat
  SenderPubkey : List Nat
deriving DecidableEq

/-- `wrap`: box-seal the AES key to the recipient's public key using a fresh
ephemeral sender keypair and 24-byte nonce (passed in as the outcome of the
random source). -/
def wrap (B : BoxScheme) (recipientPubkey keyToWrap : List Nat)
    (senderPubkey senderPrivkey boxNonce : List Nat) : WrappedKey :=
  { Nonce := boxNonce
    CipherText := B.boxSeal keyToWrap boxNonce recipientPubkey senderPrivkey
    SenderPubkey := senderPubkey }

/-- `Unwrap`: length-validate the wrapped key's fields and the private key,
then box-open.  Note the source formats the ciphertext-length message with
`len(wrappedKey.SenderPubkey)`. -/
def Unwrap (B : BoxScheme) (wrapped : WrappedKey) (privateKey : List Nat) :
    Except String (List Nat) :=
  if wrapped.Nonce.length ≠ 24 then
    .error ("incorrect nonce length: 24 != " ++ toString wrapped.Nonce.length)
  else if wrapped.SenderPubkey.length ≠ 32 then
    .error ("incorrect public key length: 32 != " ++ toString wrapped.SenderPubkey.length)
  else if privateKey.length ≠ 32 then
    .error ("incorrect private key length: 32 != " ++ toString privateKey.length)
  else if wrapped.CipherText.length ≠ 32 then
    .error ("incorrect ciphertext: 32 != " ++ toString wrapped.SenderPubkey.length)
  else
    match B.boxOpen wrapped.CipherText wrapped.Nonce wrapped.SenderPubkey privateKey with
    | some decrypted => .ok decrypted
    | none => .error "Decryption failed"

/-- `encrypt`: generate a fresh 16-byte AES key and GCM nonce (passed in as
the outcomes of the random source), wrap the key to `pubkey`, and return the
wrapped key together with `nonce ++ Seal(nonce, data)`. -/
def encrypt (A : AEADScheme) (B : BoxScheme)
    (key gcmNonce senderPubkey senderPrivkey boxNonce : List Nat)
    (data pubkey : List Nat) : WrappedKey × List Nat :=
  (wrap B pubkey key senderPubkey senderPrivkey boxNonce,
   gcmNonce ++ A.gcmSeal key gcmNonce data)

/-- Outcome of running a Go function that may panic. -/
inductive RunResult
  | panics
  | err (msg : String)
  | ok (data : List Nat)
deriving DecidableEq

/-- `decrypt`: `aes.NewCipher` rejects keys that are not 16/24/32 bytes; then
the data is sliced at the GCM nonce size with no length check, so any shorter
input makes `data[:nonceSize]` / `data[nonceSize:]` panic. -/
def decryptGo (A : AEADScheme) (data key : List Nat) : RunResult :=
  if key.length = 16 ∨ key.length = 24 ∨ key.length = 32 then
    if data.length < A.nonceSize then .panics
    else
      match A.gcmOpen key (data.take A.nonceSize) (data.drop A.nonceSize) with
      | some plaintext => .ok plaintext
      | none => .err "cipher: message authentication failed"
  else .err "crypto/aes: invalid key size"

/-! # Syncer model (`Updated`, `syncerEntry.Sync`, `Syncer.RunOnce`) -/

/-- Updated secrets during a sync: how many were added, changed, or deleted. -/
structure Updated where
  Added : Nat
  Changed : Nat
  Deleted : Nat
deriving DecidableEq

/-- `Updated.Add`, exactly as in the source: note that the `Deleted` field is
incremented by `rhs.Changed`. -/
def updatedAdd (u rhs : Updated) : Updated :=
  { Added := u.Added + rhs.Added
    Changed := u.Changed + rhs.Changed
    Deleted := u.Deleted + rhs.Changed }

/-- `Updated.Total`. -/
def updatedTotal (u : Updated) : Nat := u.Added + u.Changed + u.Deleted

/-- Outcome of `entry.Client.Secret(name)` during the fetch loop. -/
inductive FetchResult
  | fetched
  | deletedRace
  | failed
deriving DecidableEq

/-- The externally determined outcomes one `syncerEntry.Sync` observes:
`Validate` results before and after a write, fetch and write outcomes, the
success of `output.Remove`, and the count `output.Cleanup` reports. -/
structure SyncOracle where
  validate : GoStr → Bool
  fetch : GoStr → FetchResult
  writeOk : GoStr → Bool
  validateAfter : GoStr → Bool
  removeOk : GoStr → Bool
  cleanupDeleted : Nat

/-- The fetch loop of `syncerEntry.Sync` over the listed filenames: skip
still-valid secrets, defer `SecretDeleted` races to `pendingDeletions`, skip
other fetch/write failures, record sync state on success, drop it again if
the post-write `Validate` fails, and otherwise count the file — always as
`Added` (the source's `updated.Added++` with its TODO about distinguishing
added from changed).  Returns (syncState, pendingDeletions, updated). -/
def syncLoop (o : SyncOracle) :
    List GoStr → List GoStr → List GoStr → Updated → List GoStr × List GoStr × Updated
  | [], st, pd, u => (st, pd, u)
  | filename :: rest, st, pd, u =>
    if filename ∈ st ∧ o.validate filename then
      syncLoop o rest st pd u
    else
      match o.fetch filename with
      | .deletedRace => syncLoop o rest st (pd ++ [filename]) u
      | .failed => syncLoop o rest st pd u
      | .fetched =>
        if o.writeOk filename then
          let st2 := if filename ∈ st then st else st ++ [filename]
          if o.validateAfter filename then
            syncLoop o rest st2 pd { u with Added := u.Added + 1 }
          else
            syncLoop o rest (st2.erase filename) pd u
        else
          syncLoop o rest st pd u

/-- The deletion loop of `syncerEntry.Sync`: drop each pending filename from
the sync state, call `output.Remove`, and count successes as `Deleted`. -/
def deleteLoop (o : SyncOracle) :
    List GoStr → List GoStr → Updated → List GoStr × Updated
  | [], st, u => (st, u)
  | filename :: rest, st, u =>
    deleteLoop o rest (st.erase filename)
      (if o.removeOk filename then { u with Deleted := u.Deleted + 1 } else u)

/-- `syncerEntry.Sync` for a successfully listed `catalog`: the fetch loop,
then pending deletions for state entries not in the catalog, the deletion
loop, and finally `output.Cleanup`'s deletion count. -/
def entrySync (o : SyncOracle) (catalog syncState : List GoStr) : Updated :=
  let r := syncLoop o catalog syncState [] ⟨0, 0, 0⟩
  let pd := r.2.1 ++ r.1.filter (fun f => !(catalog.contains f))
  let d := deleteLoop o pd r.1 r.2.2
  { d.2 with Deleted := d.2.Deleted + o.cleanupDeleted }

/-- The `Updated` accumulation of `Syncer.RunOnce`: fold `Updated.Add` over
the per-entry sync results, then add the deletion counts from
`pendingCleanup.cleanup` and `outputCollection.Cleanup` to `Deleted`. -/
def runOnceUpdated (syncResults : List Updated) (pendingDeleted sweepDeleted : Nat) :
    Updated :=
  let u := syncResults.foldl updatedAdd ⟨0, 0, 0⟩
  { u with Deleted := u.Deleted + pendingDeleted + sweepDeleted }

/-! # HTTPS client model (client.go) -/

/-- An HTTP response as far as the retry logic inspects it. -/
structure HttpResponse where
  statusCode : Nat
  body : List Nat
deriving DecidableEq

/-- `shouldRetry`: only HTTP 500 and above is retried. -/
def shouldRetry (resp : HttpResponse) : Bool := 500 ≤ resp.statusCode

/-- The request loop of `getWithRetry`: the i-th request's outcome is
`attempt i` (a network error or a response).  The loop returns early on an
error or a non-retriable response; exhausting the bound returns the last
attempt's values, and a zero bound returns the zero values (nil, nil).
The second component counts the requests actually performed. -/
def getWithRetryLoop (attempt : Nat → Except String HttpResponse) :
    Nat → Nat → Option HttpResponse × Option String →
    (Option HttpResponse × Option String) × Nat
  | i, 0, prev => (prev, i)
  | i, remaining + 1, _ =>
    match attempt i with
    | .error e => ((none, some e), i + 1)
    | .ok resp =>
      if shouldRetry resp then getWithRetryLoop attempt (i + 1) remaining (some resp, none)
      else ((some resp, none), i + 1)

/-- `getWithRetry`: run at most `maxRetries` requests. -/
def getWithRetry (attempt : Nat → Except String HttpResponse) (maxRetries : Nat) :
    (Option HttpResponse × Option String) × Nat :=
  getWithRetryLoop attempt 0 maxRetries (none, none)

/-- `RawSecret`: on a `getWithRetry` error, return it; otherwise dereference
the response (a panic when it is nil) and switch on the status code
(200 = body, 404 = `SecretDeleted`, other = server message). -/
def RawSecret (attempt : Nat → Except String HttpResponse) (maxRetries : Nat) :
    RunResult :=
  match (getWithRetry attempt maxRetries).1 with
  | (_, some e) => .err e
  | (none, none) => .panics
  | (some resp, none) =>
    if resp.statusCode = 200 then .ok resp.body
    else if resp.statusCode = 404 then .err "deleted"
    else .err "bad response code getting secret"

/-- `RawSecretList`: same shape as `RawSecret`, requiring status 200. -/
def RawSecretList (attempt : Nat → Except String HttpResponse) (maxRetries : Nat) :
    RunResult :=
  match (getWithRetry attempt maxRetries).1 with
  | (_, some e) => .err e
  | (none, none) => .panics
  | (some resp, none) =>
    if resp.statusCode = 200 then .ok resp.body
    else .err "bad response code getting secrets"

/-! # Concrete instances used to instantiate external-primitive parameters -/

/-- A trivial AEAD meeting the round-trip contract, for concrete evaluation. -/
def trivAEAD : AEADScheme :=
  { nonceSize := 12
    gcmSeal := fun _ _ d => d
    gcmOpen := fun _ _ c => some c }

/-- A trivial box scheme with 16-byte overhead meeting the round-trip
contract (on any fixed keypair), for concrete evaluation. -/
def trivBox : BoxScheme :=
  { boxSeal := fun m _ _ _ => m ++ List.replicate 16 0
    boxOpen := fun c _ _ _ => some (c.take (c.length - 16)) }

/-- Sync outcomes of the deletion-race scenario: the catalog lists A and B,
fetching B hits the deleted race, everything else succeeds. -/
def raceOracle : SyncOracle :=
  { validate := fun _ => false
    fetch := fun f => if f = "B".data then .deletedRace else .fetched
    writeOk := fun _ => true
    validateAfter := fun _ => true
    removeOk := fun _ => true
    cleanupDeleted := 0 }

/-- Sync outcomes of the one-changed-secret scenario: B is already in the
sync state but its checksum changed, so `Validate` is false and the refetch
and rewrite succeed. -/
def changedOracle : SyncOracle :=
  { validate := fun _ => false
    fetch := fun _ => .fetched
    writeOk := fun _ => true
    validateAfter := fun _ => true
    removeOk := fun _ => true
    cleanupDeleted := 0 }

/-! # Path lemmas -/

lemma splitOnAux_not_mem (sep : Char) (s : GoStr) (acc : GoStr) (h : sep ∉ s) :
    splitOnAux sep s acc = [acc.reverse ++ s] := by
  induction s generalizing acc with
  | nil => simp [splitOnAux]
  | cons c cs ih =>
    have hc : ¬ c = sep := fun hh => h (hh ▸ List.mem_cons_self c cs)
    rw [splitOnAux, if_neg hc, ih _ (fun hm => h (List.mem_cons_of_mem _ hm))]
    simp

lemma splitOnAux_append (sep : Char) (v : GoStr) (u : GoStr) (acc : GoStr) :
    splitOnAux sep (u ++ sep :: v) acc = splitOnAux sep u acc ++ splitOnAux sep v [] := by
  induction u generalizing acc with
  | nil => simp [splitOnAux]
  | cons c cs ih =>
    by_cases hc : c = sep
    · subst hc
      simp [splitOnAux, ih]
    · simp [splitOnAux, hc, ih]

lemma cleanStack_append (name : GoStr) (h0 : name ≠ []) (h1 : name ≠ ['.'])
    (h2 : name ≠ ['.', '.']) (cs : List GoStr) :
    ∀ (acc : List GoStr) (rooted : Bool),
      cleanStack acc rooted (cs ++ [name]) = cleanStack acc rooted cs ++ [name] := by
  induction cs with
  | nil =>
    intro acc rooted
    have hne : ¬ (name = [] ∨ name = ['.']) := by
      rintro (hh | hh) <;> [exact h0 hh; exact h1 hh]
    simp only [List.nil_append, cleanStack, if_neg hne, if_neg h2]
    simp [cleanStack]
  | cons c rest ih =>
    intro acc rooted
    rcases acc with _ | ⟨top, acc2⟩ <;>
      · simp only [List.cons_append, cleanStack]
        split_ifs <;> exact ih _ _

lemma interSlash_append (name : GoStr) (comps : List GoStr) (h : comps ≠ []) :
    interSlash (comps ++ [name]) = interSlash comps ++ '/' :: name := by
  induction comps with
  | nil => exact absurd rfl h
  | cons x rest ih =>
    rcases rest with _ | ⟨y, rest2⟩
    · simp [interSlash]
    · have hr := ih (by simp)
      simp only [List.cons_append] at hr ⊢
      rw [interSlash, hr, interSlash]
      simp

lemma withinDir_child (dir rest : GoStr) : withinDir dir (dir ++ '/' :: rest) = true := by
  unfold withinDir
  rw [List.isPrefixOf_iff_prefix]
  have h : dir ++ '/' :: rest = (dir ++ ['/']) ++ rest := by simp
  rw [h]
  exact List.prefix_append _ _

/-- Joining a clean rooted directory (other than the root itself) with a
single normal component (no separator, not "", "." or "..") appends the
component under the directory. -/
lemma filepathJoin_normal (dir name : GoStr)
    (hroot : dir.head? = some '/') (hclean : goClean dir = dir) (hne : dir ≠ ['/'])
    (hname : '/' ∉ name) (h0 : name ≠ []) (h1 : name ≠ ['.']) (h2 : name ≠ ['.', '.']) :
    filepathJoin dir name = dir ++ '/' :: name := by
  obtain ⟨dir2, rfl⟩ : ∃ d, dir = '/' :: d := by
    rcases dir with _ | ⟨c, d⟩
    · simp at hroot
    · simp only [List.head?_cons, Option.some.injEq] at hroot
      exact ⟨d, by rw [hroot]⟩
  have hd : ('/' :: dir2 : GoStr) ≠ [] := by simp
  rw [filepathJoin, if_neg hd, if_neg h0]
  have hsplit : splitSlash ('/' :: dir2 ++ '/' :: name) = splitSlash ('/' :: dir2) ++ [name] := by
    unfold splitSlash
    rw [splitOnAux_append, splitOnAux_not_mem _ _ _ hname]
    simp
  have hcons : ('/' :: dir2 : GoStr) ++ '/' :: name = '/' :: (dir2 ++ '/' :: name) := rfl
  simp only [goClean] at hclean ⊢
  simp only [hcons] at hsplit ⊢
  simp only [hsplit]
  rw [cleanStack_append name h0 h1 h2]
  simp only [decide_True, if_true] at hclean ⊢
  have hC : interSlash (cleanStack [] true (splitSlash ('/' :: dir2))) = dir2 := by
    simpa using hclean
  have hCne : cleanStack [] true (splitSlash ('/' :: dir2)) ≠ [] := by
    intro hnil
    rw [hnil] at hC
    simp [interSlash] at hC
    exact hne (by rw [← hC])
  rw [interSlash_append _ _ hCne, hC]

/-! # Bit lemmas for mode clamping -/

lemma nat_or_and_distrib (a b c : Nat) : (a ||| b) &&& c = (a &&& c) ||| (b &&& c) := by
  apply Nat.eq_of_testBit_eq
  intro i
  simp [Nat.testBit_or, Nat.testBit_and, Bool.and_or_distrib_right]

lemma nat_and_assoc (a b c : Nat) : (a &&& b) &&& c = a &&& (b &&& c) := by
  apply Nat.eq_of_testBit_eq
  intro i
  simp [Nat.testBit_and, Bool.and_assoc]

lemma modeValue_and_777 (v : Nat) : ((v &&& 0o444) ||| 0o100000) &&& 0o777 = v &&& 0o444 := by
  rw [nat_or_and_distrib, nat_and_assoc]
  have h1 : (0o444 : Nat) &&& 0o777 = 0o444 := by decide
  have h2 : (0o100000 : Nat) &&& 0o777 = 0 := by decide
  rw [h1, h2]
  simp

lemma modeValue_and_444 (v : Nat) : ((v &&& 0o444) ||| 0o100000) &&& 0o444 = v &&& 0o444 := by
  rw [nat_or_and_distrib, nat_and_assoc]
  have h1 : (0o444 : Nat) &&& 0o444 = 0o444 := by decide
  have h2 : (0o100000 : Nat) &&& 0o444 = 0 := by decide
  rw [h1, h2]
  simp

lemma modeValue_testBit_false (v i : Nat) (h9 : 9 ≤ i) (hlt : (0o100000 : Nat) < 2 ^ i) :
    ((v &&& 0o444) ||| 0o100000).testBit i = false := by
  rw [Nat.testBit_or]
  rw [Nat.testBit_lt_two_pow
    (lt_of_le_of_lt (Nat.and_le_right)
      (lt_of_lt_of_le (by norm_num) (Nat.pow_le_pow_right (by norm_num) h9)))]
  rw [Nat.testBit_lt_two_pow hlt]
  rfl

lemma syscallMode_modeValue (v : Nat) :
    syscallMode ((v &&& 0o444) ||| 0o100000) = v &&& 0o444 := by
  unfold syscallMode
  rw [modeValue_testBit_false v 23 (by norm_num) (by norm_num)]
  rw [modeValue_testBit_false v 22 (by norm_num) (by norm_num)]
  rw [modeValue_testBit_false v 20 (by norm_num) (by norm_num)]
  simp [modeValue_and_777]

lemma getWithRetryLoop_count (attempt : Nat → Except String HttpResponse) :
    ∀ (remaining i : Nat) (prev : Option HttpResponse × Option String),
      (getWithRetryLoop attempt i remaining prev).2 ≤ i + remaining := by
  intro remaining
  induction remaining with
  | zero => intro i prev; simp [getWithRetryLoop]
  | succ n ih =>
    intro i prev
    rcases h : attempt i with e | resp
    · simp only [getWithRetryLoop, h]
      omega
    · simp only [getWithRetryLoop, h]
      by_cases hr : shouldRetry resp
      · rw [if_pos hr]
        have := ih (i + 1) (some resp, none)
        omega
      · rw [if_neg hr]
        omega

/-! # Claim theorems -/

/-- Claim C1 (amended).  `Secret.Filename` errors exactly when the effective
name (`FilenameOverride` if set, else `Name`) contains a path separator; for
an accepted name that is none of "", "." and "..", `OutputDir.Write` touches
exactly `{write_dir}/{filename}` (and its random-suffixed temp sibling), both
strictly inside the write directory.  (The names "..", "." and "" pass
`Filename` and land at or outside the write directory; see the
counterexample.) -/
theorem secret_filename_write_containment (dir : GoStr) (s : Secret)
    (hroot : dir.head? = some '/') (hclean : goClean dir = dir) (hne : dir ≠ ['/']) :
    ((∃ e, s.Filename = Except.error e) ↔ '/' ∈ effectiveName s) ∧
    (∀ name, s.Filename = Except.ok name →
      name ≠ [] → name ≠ ['.'] → name ≠ ['.', '.'] →
      outputWriteFullPath dir s = Except.ok (dir ++ '/' :: name) ∧
      withinDir dir (dir ++ '/' :: name) = true ∧
      ∀ randSuffix,
        outputWriteTmpPath dir s randSuffix = Except.ok (dir ++ '/' :: (name ++ randSuffix)) ∧
        withinDir dir (dir ++ '/' :: (name ++ randSuffix)) = true) := by
  have hdef : s.Filename =
      if '/' ∈ effectiveName s then
        Except.error ("secret has invalid filename, got " ++ String.mk (effectiveName s))
      else Except.ok (effectiveName s) := by
    rcases s with ⟨nm, co, ln, ck, fo, mo, ow, gr⟩
    rcases fo with _ | f <;> rfl
  constructor
  · constructor
    · rintro ⟨e, he⟩
      by_contra hmem
      rw [hdef, if_neg hmem] at he
      exact Except.noConfusion he
    · intro hmem
      refine ⟨"secret has invalid filename, got " ++ String.mk (effectiveName s), ?_⟩
      rw [hdef, if_pos hmem]
  · intro name hok h0 h1 h2
    by_cases hmem : '/' ∈ effectiveName s
    · rw [hdef, if_pos hmem] at hok
      exact Except.noConfusion hok
    · rw [hdef, if_neg hmem] at hok
      have hname : effectiveName s = name := Except.ok.inj hok
      have hmem2 : '/' ∉ name := hname ▸ hmem
      have hj := filepathJoin_normal dir name hroot hclean hne hmem2 h0 h1 h2
      have hfull : outputWriteFullPath dir s = Except.ok (dir ++ '/' :: name) := by
        rw [outputWriteFullPath, hdef, if_neg hmem, hname]
        rw [show Except.map (fun filename => filepathJoin dir filename)
              (Except.ok name : Except String GoStr) = Except.ok (filepathJoin dir name) from rfl]
        rw [hj]
      refine ⟨hfull, withinDir_child dir name, ?_⟩
      intro randSuffix
      constructor
      · rw [outputWriteTmpPath, hfull]
        rw [show Except.map (fun p => p ++ randSuffix)
              (Except.ok (dir ++ '/' :: name) : Except String GoStr) =
            Except.ok ((dir ++ '/' :: name) ++ randSuffix) from rfl]
        congr 1
        simp
      · exact withinDir_child dir (name ++ randSuffix)

/-- Claim C1 witness: a plain one-component name lands exactly at
`{write_dir}/{filename}`, strictly inside the write directory. -/
theorem secret_filename_write_containment_witness :
    outputWriteFullPath "/secrets/client1".data ⟨"x".data, [], 0, [], none, [], [], []⟩ =
      Except.ok ("/secrets/client1".data ++ '/' :: "x".data) ∧
    withinDir "/secrets/client1".data ("/secrets/client1".data ++ '/' :: "x".data) = true := by
  have h := secret_filename_write_containment "/secrets/client1".data
    ⟨"x".data, [], 0, [], none, [], [], []⟩ (by decide) (by decide) (by decide)
  have h2 := h.2 "x".data rfl (by decide) (by decide) (by decide)
  exact ⟨h2.1, h2.2.1⟩

/-- Claim C1 counterexample: the effective name ".." contains no path
separator, so `Filename` accepts it, yet the written path
`filepath.Join(write_dir, "..")` is the parent of the write directory —
a write outside the write directory, contradicting the claim as stated. -/
theorem secret_filename_write_escape_counterexample :
    Secret.Filename ⟨"..".data, [], 0, [], none, [], [], []⟩ = Except.ok "..".data ∧
    outputWriteFullPath "/secrets/client1".data ⟨"..".data, [], 0, [], none, [], [], []⟩ =
      Except.ok "/secrets".data ∧
    withinDir "/secrets/client1".data "/secrets".data = false :=
  ⟨rfl, rfl, by decide⟩

/-- Claim C2 (amended).  For a regular-file entry, `extractTar` rejects the
header with `NonCanonicalPathError`, writing nothing, exactly when the name
with "/" prepended (unless already present) differs from `filepath.Clean` of
that string; this refuses "../x" and "a/../../b".  (An absolute name such as
"/x" equals its own Clean and is accepted; see the counterexample.) -/
theorem extract_tar_rejects_noncanonical (dirpath : GoStr) (fs : TarFs) (e : TarEntry)
    (hreg : e.typeflag = TarTypeflag.reg) :
    ((processEntry dirpath fs e).2 = some (TarError.nonCanonicalPath e.name) ↔
      probePath e.name ≠ goClean (probePath e.name)) ∧
    ((processEntry dirpath fs e).2 = some (TarError.nonCanonicalPath e.name) →
      (processEntry dirpath fs e).1 = fs) ∧
    (e.name = "../x".data →
      processEntry dirpath fs e = (fs, some (TarError.nonCanonicalPath e.name))) ∧
    (e.name = "a/../../b".data →
      processEntry dirpath fs e = (fs, some (TarError.nonCanonicalPath e.name))) := by
  rcases e with ⟨tf, nm, md, u, g, ct⟩
  subst hreg
  have hred : processEntry dirpath fs ⟨TarTypeflag.reg, nm, md, u, g, ct⟩ =
      (if probePath nm ≠ goClean (probePath nm)
       then (fs, some (TarError.nonCanonicalPath nm))
       else (fsWrite fs ⟨filepathJoin dirpath nm, ct, md, u, g⟩, none)) := rfl
  refine ⟨?_, ?_, ?_, ?_⟩
  · by_cases hc : probePath nm ≠ goClean (probePath nm)
    · rw [hred, if_pos hc]
      exact ⟨fun _ => hc, fun _ => rfl⟩
    · rw [hred, if_neg hc]
      exact ⟨fun hh => Option.noConfusion hh, fun hh => absurd hh hc⟩
  · by_cases hc : probePath nm ≠ goClean (probePath nm)
    · rw [hred, if_pos hc]
      exact fun _ => rfl
    · rw [hred, if_neg hc]
      exact fun hh => Option.noConfusion hh
  · intro hn
    subst hn
    simp only [processEntry]
    rw [if_pos (by decide)]
  · intro hn
    subst hn
    simp only [processEntry]
    rw [if_pos (by decide)]

/-- Claim C2 witness: the traversal name "../x" is refused with
`NonCanonicalPathError` and nothing is written. -/
theorem extract_tar_rejects_noncanonical_witness :
    processEntry "/d".data [] ⟨TarTypeflag.reg, "../x".data, 0, 0, 0, []⟩ =
      ([], some (TarError.nonCanonicalPath "../x".data)) :=
  (extract_tar_rejects_noncanonical "/d".data [] ⟨TarTypeflag.reg, "../x".data, 0, 0, 0, []⟩
    rfl).2.2.1 rfl

/-- Claim C2 counterexample: the absolute header name "/x" already starts
with "/" and equals its own `filepath.Clean`, so the check accepts it and the
entry is written (under the destination, at `Join(dirpath, "/x")`) — the
claim's assertion that absolute paths are refused is false. -/
theorem extract_tar_accepts_absolute_counterexample :
    processEntry "/dest".data [] ⟨TarTypeflag.reg, "/x".data, 256, 0, 0, [7]⟩ =
      ([⟨"/dest/x".data, [7], 256, 0, 0⟩], none) := by decide

/-- Claim C3.  For any AEAD meeting the GCM round-trip contract and any box
scheme whose open inverts the seal performed with the recipient keypair, the
backup composition round-trips: `Unwrap` recovers exactly the 16-byte AES key
generated inside `encrypt`, and `decrypt` of the ciphertext under that key
recovers the plaintext. -/
theorem backup_encrypt_decrypt_roundtrip
    (A : AEADScheme) (B : BoxScheme)
    (p pubkey key gcmNonce senderPub senderPriv boxNonce sk : List Nat)
    (hA : ∀ k n d, A.gcmOpen k n (A.gcmSeal k n d) = some d)
    (hkey : key.length = 16)
    (hgcmNonce : gcmNonce.length = A.nonceSize)
    (hboxNonce : boxNonce.length = 24)
    (hsenderPub : senderPub.length = 32)
    (hsk : sk.length = 32)
    (hctlen : (B.boxSeal key boxNonce pubkey senderPriv).length = 32)
    (hbox : B.boxOpen (B.boxSeal key boxNonce pubkey senderPriv) boxNonce senderPub sk =
      some key) :
    Unwrap B (encrypt A B key gcmNonce senderPub senderPriv boxNonce p pubkey).1 sk =
      Except.ok key ∧
    decryptGo A (encrypt A B key gcmNonce senderPub senderPriv boxNonce p pubkey).2 key =
      RunResult.ok p := by
  constructor
  · show Unwrap B (wrap B pubkey key senderPub senderPriv boxNonce) sk = Except.ok key
    rw [Unwrap]
    simp only [wrap]
    rw [if_neg (by rw [hboxNonce]; exact fun hh => hh rfl)]
    rw [if_neg (by rw [hsenderPub]; exact fun hh => hh rfl)]
    rw [if_neg (by rw [hsk]; exact fun hh => hh rfl)]
    rw [if_neg (by rw [hctlen]; exact fun hh => hh rfl)]
    rw [hbox]
  · show decryptGo A (gcmNonce ++ A.gcmSeal key gcmNonce p) key = RunResult.ok p
    rw [decryptGo]
    rw [if_pos (Or.inl hkey)]
    rw [if_neg (by rw [← hgcmNonce]; simp)]
    rw [← hgcmNonce, List.take_left, List.drop_left, hA]

/-- Claim C3 witness: the round-trip evaluated with concrete trivial schemes
meeting the contracts. -/
theorem backup_encrypt_decrypt_roundtrip_witness :
    Unwrap trivBox
        (encrypt trivAEAD trivBox (List.replicate 16 0) (List.replicate 12 1)
          (List.replicate 32 2) [] (List.replicate 24 3) [9, 9]
          (List.replicate 32 4)).1 (List.replicate 32 5) =
      Except.ok (List.replicate 16 0) ∧
    decryptGo trivAEAD
        (encrypt trivAEAD trivBox (List.replicate 16 0) (List.replicate 12 1)
          (List.replicate 32 2) [] (List.replicate 24 3) [9, 9]
          (List.replicate 32 4)).2 (List.replicate 16 0) =
      RunResult.ok [9, 9] :=
  backup_encrypt_decrypt_roundtrip trivAEAD trivBox [9, 9] (List.replicate 32 4)
    (List.replicate 16 0) (List.replicate 12 1) (List.replicate 32 2) []
    (List.replicate 24 3) (List.replicate 32 5)
    (fun _ _ _ => rfl) (by decide) (by decide) (by decide) (by decide) (by decide)
    (by decide) (by decide)

/-- Claim C6.  If the destination directory holds any file, `extractTar`
fails with an error listing every file found, before processing a single
entry, and the filesystem is returned unchanged. -/
theorem extract_tar_nonempty_destination (entries : List TarEntry) (dirpath : GoStr)
    (fs : TarFs) (h : fs ≠ []) :
    extractTar entries dirpath fs =
      (fs, some (TarError.nonEmptyDir (fs.map (fun f => f.path)))) := by
  rcases fs with _ | ⟨f, rest⟩
  · exact absurd rfl h
  · rfl

/-- Claim C6 witness: restoring into a directory holding one file fails with
that file listed and the directory contents unchanged. -/
theorem extract_tar_nonempty_destination_witness :
    extractTar [⟨TarTypeflag.reg, "x".data, 0, 0, 0, []⟩] "/d".data
        [⟨"/d/a".data, [1], 256, 0, 0⟩] =
      ([⟨"/d/a".data, [1], 256, 0, 0⟩], some (TarError.nonEmptyDir ["/d/a".data])) :=
  extract_tar_nonempty_destination [⟨TarTypeflag.reg, "x".data, 0, 0, 0, []⟩] "/d".data
    [⟨"/d/a".data, [1], 256, 0, 0⟩] (by decide)

/-- Claim C7 (amended).  `Unwrap` fails exactly when a length validation
fails (nonce 24, sender public key 32, private key 32, ciphertext 32) or
box-open fails — but the validation failures return distinct errors naming
the failed check; only the box-open failure is the opaque
"Decryption failed". -/
theorem unwrap_length_validation (B : BoxScheme) (w : WrappedKey) (sk : List Nat) :
    ((∃ k, Unwrap B w sk = Except.ok k) ↔
      (w.Nonce.length = 24 ∧ w.SenderPubkey.length = 32 ∧ sk.length = 32 ∧
        w.CipherText.length = 32 ∧
        ∃ k, B.boxOpen w.CipherText w.Nonce w.SenderPubkey sk = some k)) ∧
    (w.Nonce.length ≠ 24 →
      Unwrap B w sk =
        Except.error ("incorrect nonce length: 24 != " ++ toString w.Nonce.length)) ∧
    (w.Nonce.length = 24 → w.SenderPubkey.length ≠ 32 →
      Unwrap B w sk =
        Except.error ("incorrect public key length: 32 != " ++ toString w.SenderPubkey.length)) ∧
    (w.Nonce.length = 24 → w.SenderPubkey.length = 32 → sk.length ≠ 32 →
      Unwrap B w sk =
        Except.error ("incorrect private key length: 32 != " ++ toString sk.length)) ∧
    (w.Nonce.length = 24 → w.SenderPubkey.length = 32 → sk.length = 32 →
      w.CipherText.length ≠ 32 →
      Unwrap B w sk =
        Except.error ("incorrect ciphertext: 32 != " ++ toString w.SenderPubkey.length)) ∧
    (w.Nonce.length = 24 → w.SenderPubkey.length = 32 → sk.length = 32 →
      w.CipherText.length = 32 →
      B.boxOpen w.CipherText w.Nonce w.SenderPubkey sk = none →
      Unwrap B w sk = Except.error "Decryption failed") := by
  refine ⟨?_, ?_, ?_, ?_, ?_, ?_⟩
  · constructor
    · rintro ⟨k, hk⟩
      rw [Unwrap] at hk
      by_cases h1 : w.Nonce.length ≠ 24
      · rw [if_pos h1] at hk; exact Except.noConfusion hk
      rw [if_neg h1] at hk
      by_cases h2 : w.SenderPubkey.length ≠ 32
      · rw [if_pos h2] at hk; exact Except.noConfusion hk
      rw [if_neg h2] at hk
      by_cases h3 : sk.length ≠ 32
      · rw [if_pos h3] at hk; exact Except.noConfusion hk
      rw [if_neg h3] at hk
      by_cases h4 : w.CipherText.length ≠ 32
      · rw [if_pos h4] at hk; exact Except.noConfusion hk
      rw [if_neg h4] at hk
      rcases hres : B.boxOpen w.CipherText w.Nonce w.SenderPubkey sk with _ | k2
      · rw [hres] at hk; exact Except.noConfusion hk
      · exact ⟨not_ne_iff.mp h1, not_ne_iff.mp h2, not_ne_iff.mp h3, not_ne_iff.mp h4,
          k2, rfl⟩
    · rintro ⟨h1, h2, h3, h4, k, h5⟩
      refine ⟨k, ?_⟩
      rw [Unwrap, if_neg (not_ne_iff.mpr h1), if_neg (not_ne_iff.mpr h2),
        if_neg (not_ne_iff.mpr h3), if_neg (not_ne_iff.mpr h4), h5]
  · intro h1
    rw [Unwrap, if_pos h1]
  · intro h1 h2
    rw [Unwrap, if_neg (not_ne_iff.mpr h1), if_pos h2]
  · intro h1 h2 h3
    rw [Unwrap, if_neg (not_ne_iff.mpr h1), if_neg (not_ne_iff.mpr h2), if_pos h3]
  · intro h1 h2 h3 h4
    rw [Unwrap, if_neg (not_ne_iff.mpr h1), if_neg (not_ne_iff.mpr h2),
      if_neg (not_ne_iff.mpr h3), if_pos h4]
  · intro h1 h2 h3 h4 h5
    rw [Unwrap, if_neg (not_ne_iff.mpr h1), if_neg (not_ne_iff.mpr h2),
      if_neg (not_ne_iff.mpr h3), if_neg (not_ne_iff.mpr h4), h5]

/-- Claim C7 witness: a wrapped key whose nonce has the wrong length is
rejected with the error naming the nonce check. -/
theorem unwrap_length_validation_witness :
    Unwrap trivBox ⟨[], [], []⟩ [] =
      Except.error ("incorrect nonce length: 24 != " ++ toString (0 : Nat)) :=
  (unwrap_length_validation trivBox ⟨[], [], []⟩ []).2.1 (by decide)

/-- Claim C7 counterexample: a failed length validation does disclose which
check failed — the message differs from the opaque "Decryption failed", so
the claim that every failure is a single opaque error is false. -/
theorem unwrap_opaque_error_counterexample :
    Unwrap trivBox ⟨[], [], []⟩ [] = Except.error "incorrect nonce length: 24 != 0" ∧
    ("incorrect nonce length: 24 != 0" : String) ≠ "Decryption failed" := by
  constructor
  · rfl
  · decide

/-- Claim C8.  `ModeValue` substitutes "0440" for an empty mode string,
errors exactly when octal parsing fails, and on success both the permission
bits of the resulting mode and the bits chmod applies on disk are clamped to
a subset of 0444. -/
theorem mode_parse_and_clamp (s : Secret) :
    ((∃ e, s.ModeValue = Except.error e) ↔
      parseUintOct16 (if s.Mode = [] then "0440".data else s.Mode) = none) ∧
    (s.Mode = [] → s.ModeValue = Secret.ModeValue { s with Mode := "0440".data }) ∧
    (∀ m, s.ModeValue = Except.ok m →
      m &&& 0o777 = m &&& 0o444 ∧ syscallMode m = m &&& 0o444) ∧
    (∀ dm, writtenDiskMode s = Except.ok dm → dm &&& 0o444 = dm) := by
  have hsub : s.Mode = [] → s.ModeValue = Secret.ModeValue { s with Mode := "0440".data } := by
    intro hm
    simp [Secret.ModeValue, hm]
  rcases hp : parseUintOct16 (if s.Mode = [] then "0440".data else s.Mode) with _ | v
  · have hdef : s.ModeValue =
        Except.error ("Unable to parse secret file mode: "
          ++ String.mk (if s.Mode = [] then "0440".data else s.Mode)) := by
      simp only [Secret.ModeValue]
      rw [hp]
    refine ⟨⟨fun _ => rfl, fun _ => ⟨_, hdef⟩⟩, hsub, ?_, ?_⟩
    · intro m hm
      rw [hdef] at hm
      exact Except.noConfusion hm
    · intro dm hdm
      rw [writtenDiskMode, hdef] at hdm
      exact Except.noConfusion hdm
  · have hdef : s.ModeValue = Except.ok ((v &&& 0o444) ||| 0o100000) := by
      simp only [Secret.ModeValue]
      rw [hp]
    refine ⟨⟨?_, ?_⟩, hsub, ?_, ?_⟩
    · rintro ⟨e, he⟩
      rw [hdef] at he
      exact Except.noConfusion he
    · intro hh
      exact Option.noConfusion hh
    · intro m hm
      rw [hdef] at hm
      have hmv : m = (v &&& 0o444) ||| 0o100000 := (Except.ok.inj hm).symm
      subst hmv
      constructor
      · rw [modeValue_and_777, modeValue_and_444]
      · rw [syscallMode_modeValue, modeValue_and_444]
    · intro dm hdm
      rw [writtenDiskMode, hdef] at hdm
      have hdv : dm = syscallMode ((v &&& 0o444) ||| 0o100000) := (Except.ok.inj hdm).symm
      subst hdv
      rw [syscallMode_modeValue, nat_and_assoc]
      norm_num

/-- Claim C8 witness: mode string "0640" parses, write and group-read bits
outside 0444 are stripped, and the on-disk bits equal 0440. -/
theorem mode_parse_and_clamp_witness :
    ((0o100440 : Nat) &&& 0o777 = 0o100440 &&& 0o444) ∧
    syscallMode 0o100440 = 0o100440 &&& 0o444 := by
  have h := mode_parse_and_clamp ⟨"x".data, [], 0, [], none, "0640".data, [], []⟩
  exact h.2.2.1 0o100440 rfl

/-- Claim C9.  `decrypt` slices its input at the AES-GCM nonce size with no
length check: any input shorter than the 12-byte nonce makes the slicing
panic rather than return an error. -/
theorem decrypt_short_input_panics (A : AEADScheme) (data key : List Nat)
    (hns : A.nonceSize = 12) (hkey : key.length = 16) (hshort : data.length < 12) :
    decryptGo A data key = RunResult.panics := by
  rw [decryptGo, if_pos (Or.inl hkey), if_pos (by rw [hns]; exact hshort)]

/-- Claim C9 witness: an empty backup file panics inside `decrypt`. -/
theorem decrypt_short_input_panics_witness :
    decryptGo trivAEAD [] (List.replicate 16 0) = RunResult.panics :=
  decrypt_short_input_panics trivAEAD [] (List.replicate 16 0) rfl (by decide) (by decide)

/-- Claim C10.  `getWithRetry` performs at most `maxRetries` requests (the
first attempt counts against the bound); with `maxRetries = 0` it makes no
request and returns nil response and nil error, upon which `RawSecret` and
`RawSecretList` dereference the nil response (a panic) instead of returning
an error. -/
theorem get_with_retry_bound (attempt : Nat → Except String HttpResponse) (maxRetries : Nat) :
    (getWithRetry attempt maxRetries).2 ≤ maxRetries ∧
    (maxRetries = 0 →
      getWithRetry attempt maxRetries = ((none, none), 0) ∧
      RawSecret attempt maxRetries = RunResult.panics ∧
      RawSecretList attempt maxRetries = RunResult.panics) := by
  constructor
  · have h := getWithRetryLoop_count attempt maxRetries 0 (none, none)
    simpa [getWithRetry] using h
  · rintro rfl
    exact ⟨rfl, rfl, rfl⟩

/-- Claim C10 witness: with the retry bound at zero, no request is made and
both raw fetchers panic on the nil response. -/
theorem get_with_retry_bound_witness :
    (getWithRetry (fun _ => Except.ok ⟨200, []⟩) 0).2 ≤ 0 ∧
    (getWithRetry (fun _ => Except.ok ⟨200, []⟩) 0 = ((none, none), 0) ∧
      RawSecret (fun _ => Except.ok ⟨200, []⟩) 0 = RunResult.panics ∧
      RawSecretList (fun _ => Except.ok ⟨200, []⟩) 0 = RunResult.panics) :=
  ⟨(get_with_retry_bound (fun _ => Except.ok ⟨200, []⟩) 0).1,
   (get_with_retry_bound (fun _ => Except.ok ⟨200, []⟩) 0).2 rfl⟩

/-- Claim C4 evaluation.  `Updated.Add` increments `Deleted` by
`rhs.Changed`, so the `Deleted` count reported by an entry's sync is dropped
by `RunOnce`: the deletion-race scenario's entry result {1,0,1} aggregates to
{1,0,0}, not {1,0,1} as the spec states. -/
theorem updated_add_drops_entry_deletions :
    updatedAdd ⟨0, 0, 0⟩ ⟨1, 0, 1⟩ = ⟨1, 0, 0⟩ ∧
    entrySync raceOracle ["A".data, "B".data] [] = ⟨1, 0, 1⟩ ∧
    runOnceUpdated [entrySync raceOracle ["A".data, "B".data] []] 0 0 = ⟨1, 0, 0⟩ ∧
    runOnceUpdated [entrySync raceOracle ["A".data, "B".data] []] 0 0 ≠ ⟨1, 0, 1⟩ := by
  decide

/-- Claim C5 evaluation.  `syncerEntry.Sync` counts every successfully
written and validated secret as `Added` (the source's TODO), even when the
sync state already held the filename: the one-changed-secret scenario yields
{1,0,0}, not {0,1,0} as the spec and the repository's own test
`TestSyncChangedSecrets` require. -/
theorem changed_secret_counted_as_added :
    entrySync changedOracle ["B".data] ["B".data] = ⟨1, 0, 0⟩ ∧
    entrySync changedOracle ["B".data] ["B".data] ≠ ⟨0, 1, 0⟩ := by
  decide
